import Mathlib

/-!
# Verification of the draw-shape geometry utilities

A shallow embedding of `src/lib/shape-utils/draw.tsx` (the freehand "draw"
shape utilities of a whiteboard application): bounds computation with
identity-keyed caching, rotated bounds, point and brush hit-testing,
resize transform, style application and outline-path rendering.

Numbers are embedded as rationals (the source uses JS doubles; every claim
checked here is algebraic, not about floating-point rounding). Sample
points are embedded as `List ℚ`, mirroring the source's `number[][]`
(`[x, y, pressure]` triples, accessed positionally with out-of-range
access embedded as the default `0`). JS object identity (the keys of the
source's `WeakMap` caches) is embedded as an explicit `ref` token carried
by shapes and point sequences, with fresh tokens handed out by an
allocation counter `Alloc`.

Helpers imported by `draw.tsx` from elsewhere in the repository
(`utils/vec`, `utils/utils`, `utils/bounds`, `utils/intersections`,
`lib/shape-styles`, the `perfect-freehand` library) are not part of the
sampled sources; each such definition below is modelled from the spec and
says so in its doc comment.
-/

/-- Axis-aligned bounding box, mirroring the repository's
`Bounds = {minX, minY, maxX, maxY, width, height}`. -/
structure Bounds where
  minX : ℚ
  minY : ℚ
  maxX : ℚ
  maxY : ℚ
  width : ℚ
  height : ℚ
deriving DecidableEq, Repr

/-- `x` coordinate of a sample point (`p[0]` in the source). -/
def ptX (p : List ℚ) : ℚ := p.getD 0 0

/-- `y` coordinate of a sample point (`p[1]` in the source). -/
def ptY (p : List ℚ) : ℚ := p.getD 1 0

/-- Third (pressure) coordinate of a sample point (`p[2]` in the source);
a missing entry is embedded as `0` (in JS, `undefined`, which compares
unequal to `0.5` just as `0` does). -/
def ptP (p : List ℚ) : ℚ := p.getD 2 0

/-- A sample point as a 2D pair. -/
def toPt (p : List ℚ) : ℚ × ℚ := (ptX p, ptY p)

/-- Modelled from the spec: vector subtraction from the vector-math
capability set (`vec.sub`). -/
def vsub (a b : ℚ × ℚ) : ℚ × ℚ := (a.1 - b.1, a.2 - b.2)

/-- Modelled from the spec: vector addition from the vector-math
capability set (`vec.add`). -/
def vadd (a b : ℚ × ℚ) : ℚ × ℚ := (a.1 + b.1, a.2 + b.2)

/-- Modelled from the spec: translate a box by a vector
(`translateBounds`): the box is moved rigidly, so the min and max corners
both shift and the dimensions stay fixed. -/
def translateBounds (b : Bounds) (delta : ℚ × ℚ) : Bounds :=
  { minX := b.minX + delta.1
    minY := b.minY + delta.2
    maxX := b.maxX + delta.1
    maxY := b.maxY + delta.2
    width := b.width
    height := b.height }

/-- Modelled from the spec: center of a box (`getBoundsCenter`). -/
def getBoundsCenter (b : Bounds) : ℚ × ℚ :=
  (b.minX + b.width / 2, b.minY + b.height / 2)

/-- Modelled from the spec: the bounds-from-point-set constructor
(`getBoundsFromPoints` with no rotation): the box enclosing the points in
the frame they are given in; an empty point sequence yields the
degenerate zero box. -/
def getBoundsFromPoints0 : List (List ℚ) → Bounds
  | [] => ⟨0, 0, 0, 0, 0, 0⟩
  | p :: ps =>
    let minX := (ps.map ptX).foldl min (ptX p)
    let minY := (ps.map ptY).foldl min (ptY p)
    let maxX := (ps.map ptX).foldl max (ptX p)
    let maxY := (ps.map ptY).foldl max (ptY p)
    ⟨minX, minY, maxX, maxY, maxX - minX, maxY - minY⟩

/-- Modelled from the spec: stand-in for the cosine used by the external
rotate-about-point helper; a computable small-angle approximant, exact at
angle `0` — the only angle any claim exercises. -/
def cosQ (theta : ℚ) : ℚ := 1 - theta ^ 2 / 2

/-- Modelled from the spec: stand-in for the sine used by the external
rotate-about-point helper; a computable small-angle approximant, exact at
angle `0` — the only angle any claim exercises. -/
def sinQ (theta : ℚ) : ℚ := theta

/-- Modelled from the spec: rotate a point about a center
(`vec.rotWith`), with the trigonometric functions modelled by `cosQ` and
`sinQ`. -/
def rotWith (p c : ℚ × ℚ) (theta : ℚ) : ℚ × ℚ :=
  let x := p.1 - c.1
  let y := p.2 - c.2
  (c.1 + (cosQ theta * x - sinQ theta * y),
   c.2 + (sinQ theta * x + cosQ theta * y))

/-- Modelled from the spec: the bounds-from-point-set constructor with
its optional rotation argument (`getBoundsFromPoints(points, rotation)`):
with rotation `0` it is the plain enclosing box, otherwise the box
enclosing the points pre-rotated about the plain box's center. -/
def getBoundsFromPoints (points : List (List ℚ)) (rotation : ℚ) : Bounds :=
  if rotation = 0 then getBoundsFromPoints0 points
  else
    let c := getBoundsCenter (getBoundsFromPoints0 points)
    getBoundsFromPoints0
      (points.map fun p =>
        let q := rotWith (toPt p) c rotation
        [q.1, q.2])

/-- Dash style enum from the repository's `types` module (`DashStyle`). -/
inductive DashStyle where
  | draw
  | solid
  | dashed
  | dotted
deriving DecidableEq, Repr

/-- Stroke-size category from the repository's style enums. -/
inductive SizeStyle where
  | small
  | medium
  | large
deriving DecidableEq, Repr

/-- Shape style record (`ShapeStyles`): color, stroke-size category, dash
style and fill flag, per the spec's data model. -/
structure ShapeStyles where
  color : String
  size : SizeStyle
  dash : DashStyle
  isFilled : Bool
deriving DecidableEq, Repr

/-- A partial style: the argument of `applyStyles`, every field optional;
a `none` field leaves the shape's existing field in place (JS object
spread). -/
structure PartialShapeStyles where
  color : Option String := none
  size : Option SizeStyle := none
  dash : Option DashStyle := none
  isFilled : Option Bool := none

/-- Modelled from the spec: the default style record (`defaultStyle`). -/
def defaultStyle : ShapeStyles :=
  { color := "black", size := SizeStyle.small, dash := DashStyle.draw, isFilled := false }

/-- Modelled from the spec: numeric stroke width resolved from the
stroke-size category (part of `getShapeStyle`); all widths are positive. -/
def strokeWidths : SizeStyle → ℚ
  | SizeStyle.small => 2
  | SizeStyle.medium => 4
  | SizeStyle.large => 8

/-- Resolved (concrete) style values, as produced by `getShapeStyle`. -/
structure ResolvedShapeStyle where
  stroke : String
  strokeWidth : ℚ
deriving DecidableEq, Repr

/-- Modelled from the spec: the style-resolution function
(`getShapeStyle`) mapping abstract style enums to concrete numeric/string
values. -/
def getShapeStyle (style : ShapeStyles) : ResolvedShapeStyle :=
  { stroke := style.color, strokeWidth := strokeWidths style.size }

/-- The draw shape (`DrawShape`): anchor point, sample points, rotation,
style, plus the flags and document-ordering fields of the data model.
`ref` embeds the JS object identity of the shape (the `WeakMap` key of the
bounds and rotation caches); `pointsRef` embeds the object identity of the
`points` array (the key of the path cache). -/
structure Shape where
  ref : ℕ
  id : String
  name : String
  parentId : String
  childIndex : ℕ
  point : ℚ × ℚ
  points : List (List ℚ)
  pointsRef : ℕ
  rotation : ℚ
  style : ShapeStyles
  isGenerated : Bool
  isAspectRatioLocked : Bool
  isLocked : Bool
  isHidden : Bool
deriving DecidableEq, Repr

/-- Allocation counter for identity tokens: every live `ref`/`pointsRef`
is below `next`, so `next` is always a fresh identity (a fresh JS object). -/
structure Alloc where
  next : ℕ
deriving DecidableEq, Repr

/-- The `boundsCache : WeakMap<DrawShape, Bounds>`, keyed by shape
identity, embedded as an association list over `ref` tokens. -/
abbrev BCache := List (ℕ × Bounds)

/-- The `rotatedCache : WeakMap<DrawShape, number[][]>` of rotated point
positions, keyed by shape identity. -/
abbrev RCache := List (ℕ × List (ℚ × ℚ))

/-- The `pathCache : WeakMap<DrawShape['points'], string>`, keyed by the
identity of the points array. -/
abbrev PathCache := List (ℕ × String)

/-- `getBounds(shape)` from `draw.tsx`: on a cache miss compute the local
(untranslated) box of `shape.points` and store it; always return the
cached local box translated by the shape's current anchor `shape.point`.
Returns the value, the updated cache, and a flag recording whether the
local box was recomputed on this call (true exactly on a cache miss). -/
def getBoundsC (cache : BCache) (shape : Shape) : Bounds × BCache × Bool :=
  match List.lookup shape.ref cache with
  | some b => (translateBounds b shape.point, cache, false)
  | none =>
    let b := getBoundsFromPoints0 shape.points
    (translateBounds b shape.point, (shape.ref, b) :: cache, true)

/-- The bounds cache is consistent for `shape` when its entry, if any,
is the local (untranslated) box of the shape's current points — the
invariant `getBoundsC` itself establishes. -/
def boundsCacheConsistent (cache : BCache) (shape : Shape) : Prop :=
  ∀ b, List.lookup shape.ref cache = some b → b = getBoundsFromPoints0 shape.points

/-- `getRotatedBounds(shape)` from `draw.tsx`: the box of the points
pre-rotated by `shape.rotation`, translated by the anchor, then translated
so its center coincides with the center of the unrotated bounds. -/
def getRotatedBounds (cache : BCache) (shape : Shape) : Bounds × BCache :=
  let rBounds := translateBounds (getBoundsFromPoints shape.points shape.rotation) shape.point
  let g := getBoundsC cache shape
  let delta := vsub (getBoundsCenter g.1) (getBoundsCenter rBounds)
  (translateBounds rBounds delta, g.2.1)

/-- Modelled from the spec: squared distance from point `p` to the
segment `a`–`b` (the vector-math `distanceToLineSegment`, kept squared so
the development stays in ℚ; comparisons against a nonnegative threshold
`m` are embedded as comparisons of squares against `m ^ 2`). -/
def distanceToLineSegmentSq (a b p : ℚ × ℚ) : ℚ :=
  let d := vsub b a
  let lenSq := d.1 ^ 2 + d.2 ^ 2
  if lenSq = 0 then (p.1 - a.1) ^ 2 + (p.2 - a.2) ^ 2
  else
    let t := max 0 (min 1 (((p.1 - a.1) * d.1 + (p.2 - a.2) * d.2) / lenSq))
    (p.1 - (a.1 + t * d.1)) ^ 2 + (p.2 - (a.2 + t * d.2)) ^ 2

/-- `hitTest(shape, point)` from `draw.tsx`: translate the query point
into the shape's local frame, then test whether some segment between
consecutive sample points passes within the numeric stroke width of it
(the source's `points.some((curr, i) => i > 0 && dist(points[i-1], curr, pt) < min)`,
with the distance comparison squared). -/
def hitTest (shape : Shape) (point : ℚ × ℚ) : Bool :=
  let pt := vsub point shape.point
  let m := (getShapeStyle shape.style).strokeWidth
  shape.points.enum.any fun curr =>
    decide (0 < curr.1) &&
      decide (distanceToLineSegmentSq (toPt (shape.points.getD (curr.1 - 1) []))
        (toPt curr.2) pt < m ^ 2)

/-- Modelled from the spec: the bounds-containment predicate
(`boundsContain a b`: box `b` lies fully inside box `a`). -/
def boundsContain (a b : Bounds) : Bool :=
  decide (a.minX ≤ b.minX) && decide (a.minY ≤ b.minY) &&
    decide (b.maxX ≤ a.maxX) && decide (b.maxY ≤ a.maxY)

/-- One axis of the slab test: restrict the parameter interval `[lo, hi]`
of the segment `p + t * d` to the slab `mn ≤ coordinate ≤ mx`; `none`
when the segment's line misses the slab entirely. -/
def slabClip (p d mn mx : ℚ) (lohi : ℚ × ℚ) : Option (ℚ × ℚ) :=
  if d = 0 then
    if mn ≤ p ∧ p ≤ mx then some lohi else none
  else
    let t1 := (mn - p) / d
    let t2 := (mx - p) / d
    some (max lohi.1 (min t1 t2), min lohi.2 (max t1 t2))

/-- Modelled from the spec: whether the segment `a`–`b` crosses or enters
the box (one segment of the polyline/bounds intersection test). -/
def segmentIntersectsBounds (a b : ℚ × ℚ) (bb : Bounds) : Bool :=
  let d := vsub b a
  match slabClip a.1 d.1 bb.minX bb.maxX (0, 1) with
  | none => false
  | some lohi =>
    match slabClip a.2 d.2 bb.minY bb.maxY lohi with
    | none => false
    | some lohi => decide (lohi.1 ≤ lohi.2)

/-- Modelled from the spec: the polyline/bounds intersection test
(`intersectPolylineBounds(points, bounds).length > 0`, embedded as the
Boolean "some segment between consecutive points crosses or enters the
box"). -/
def polylineIntersectsBounds (points : List (ℚ × ℚ)) (bb : Bounds) : Bool :=
  (points.zip (points.drop 1)).any fun ab => segmentIntersectsBounds ab.1 ab.2 bb

/-- `hitTestBounds(shape, brushBounds)` from `draw.tsx`. Unrotated branch:
brush contains the document-space bounds, or the polyline given by
`shape.points` — as written in the source, NOT translated by the anchor —
crosses or enters the brush. Rotated branch: brush contains the rotated
bounds, or the cached document-space rotated polyline (points translated
by the anchor, then rotated about the rotated-bounds center) crosses or
enters the brush. Returns the result with the updated caches. -/
def hitTestBounds (bcache : BCache) (rcache : RCache) (shape : Shape)
    (brushBounds : Bounds) : Bool × BCache × RCache :=
  if shape.rotation = 0 then
    let g := getBoundsC bcache shape
    (boundsContain brushBounds g.1 ||
       polylineIntersectsBounds (shape.points.map toPt) brushBounds,
     g.2.1, rcache)
  else
    let rb := getRotatedBounds bcache shape
    let rcache' :=
      if (List.lookup shape.ref rcache).isSome then rcache
      else
        let c := getBoundsCenter rb.1
        (shape.ref,
          shape.points.map fun pt => rotWith (vadd (toPt pt) shape.point) c shape.rotation)
          :: rcache
    (boundsContain brushBounds rb.1 ||
       polylineIntersectsBounds ((List.lookup shape.ref rcache').getD []) brushBounds,
     rb.2, rcache')

/-- The unrotated-branch semantics the spec states for `hitTestBounds`:
the brush fully contains the shape's document-space bounds, or the shape's
document-space polyline — consecutive sample points translated by the
shape's anchor — crosses or enters the brush. -/
def hitTestBoundsSpecUnrotated (bcache : BCache) (shape : Shape)
    (brushBounds : Bounds) : Bool :=
  boundsContain brushBounds (getBoundsC bcache shape).1 ||
    polylineIntersectsBounds (shape.points.map fun p => vadd (toPt p) shape.point)
      brushBounds

/-- The per-point remapping inside `transform`: the point `[x, y]` (the
pressure coordinate is dropped by the source's `([x, y]) => ...`
destructuring) is mapped proportionally from the pre-transform local
bounds `ib` into `bounds`'s dimensions, flipping the proportion when the
corresponding scale factor is negative. -/
def remapPoint (bounds ib : Bounds) (scaleX scaleY : ℚ) (p : List ℚ) : List ℚ :=
  [bounds.width * (if scaleX < 0 then 1 - ptX p / ib.width else ptX p / ib.width),
   bounds.height * (if scaleY < 0 then 1 - ptY p / ib.height else ptY p / ib.height)]

/-- `transform(shape, bounds, {initialShape, scaleX, scaleY})` from
`draw.tsx`: look up the pre-transform local bounds of `initialShape` in
the bounds cache (`none` when absent — the source would read fields of
`undefined`); remap every point of `initialShape` by `remapPoint`; then
re-anchor so the new bounds' top-left lands on the target's top-left.
The new points array is a fresh object, so it gets a fresh identity
token. -/
def transform (cache : BCache) (al : Alloc) (shape : Shape) (bounds : Bounds)
    (initialShape : Shape) (scaleX scaleY : ℚ) : Option (Shape × Alloc) :=
  match List.lookup initialShape.ref cache with
  | none => none
  | some initialShapeBounds =>
    let newPoints := initialShape.points.map (remapPoint bounds initialShapeBounds scaleX scaleY)
    let newBounds := getBoundsFromPoints0 newPoints
    some
      ({ shape with
          points := newPoints
          pointsRef := al.next
          point := vsub (bounds.minX, bounds.minY) (newBounds.minX, newBounds.minY) },
       { next := al.next + 1 })

/-- `applyStyles(shape, style)` from `draw.tsx`: merge the partial style
onto the existing style, force `isFilled = false` and `dash = Solid`, and
replace `points` with a fresh copy holding the same values (`[...points]`
— a new array object, hence a fresh identity token). -/
def applyStyles (al : Alloc) (shape : Shape) (style : PartialShapeStyles) :
    Shape × Alloc :=
  let merged : ShapeStyles :=
    { color := style.color.getD shape.style.color
      size := style.size.getD shape.style.size
      dash := style.dash.getD shape.style.dash
      isFilled := style.isFilled.getD shape.style.isFilled }
  let styles := { merged with isFilled := false, dash := DashStyle.solid }
  ({ shape with style := styles, points := shape.points, pointsRef := al.next },
   { next := al.next + 1 })

/-- The pressure-handling part of the options handed to the stroke
generator. `easing = none` means the settings object carries no easing
key of its own (the generator's default applies). -/
structure StrokeSettings where
  simulatePressure : Bool
  easing : Option (ℚ → ℚ)

/-- `simulatePressureSettings` from `draw.tsx`: simulate pressure, no
easing of its own. -/
def simulatePressureSettings : StrokeSettings :=
  { simulatePressure := true, easing := none }

/-- `realPressureSettings` from `draw.tsx`: use the recorded pressure
values with the quadratic easing `t ↦ t * t`. -/
def realPressureSettings : StrokeSettings :=
  { simulatePressure := false, easing := some fun t => t * t }

/-- The option selection of `renderPath`: `simulatePressureSettings` when
the second point's third coordinate equals exactly `0.5` (the "no real
pressure captured" sentinel), else `realPressureSettings`
(`shape.points[1][2] === 0.5 ? simulatePressureSettings : realPressureSettings`). -/
def strokeSettings (shape : Shape) : StrokeSettings :=
  if ptP (shape.points.getD 1 []) = 1 / 2 then simulatePressureSettings
  else realPressureSettings

/-- The full options record handed to the stroke generator: fixed size,
thinning and tapers derived from the resolved stroke width, with the
pressure-handling settings spread on top. -/
structure StrokeOptions where
  size : ℚ
  thinning : ℚ
  taperStart : ℚ
  taperEnd : ℚ
  simulatePressure : Bool
  easing : Option (ℚ → ℚ)

/-- Modelled from the spec: the external stroke-outline generator
(`perfect-freehand`'s `getStroke`); reproducing its algorithm is a
declared non-goal, so it is modelled as a fixed computable map from the
input points and options to an outline polygon. No claim depends on its
output values. -/
def getStroke (points : List (List ℚ)) (options : StrokeOptions) : List (List ℚ) :=
  points.map fun p => [ptX p, ptY p, options.size]

/-- Modelled from the spec: the conversion from an outline polygon to a
drawable path description (`getSvgPathFromStroke`); modelled as a fixed
encoding that is nonempty on every input. -/
def getSvgPathFromStroke (stroke : List (List ℚ)) : String :=
  "M " ++ toString stroke.length

/-- `renderPath(shape, style)` from `draw.tsx`: with fewer than two
points cache the empty path for this points array and stop; otherwise
select the pressure settings, run the stroke generator with the resolved
size/thinning/taper options, and cache the resulting path keyed by the
points array's identity. -/
def renderPath (pc : PathCache) (shape : Shape) (style : ShapeStyles) : PathCache :=
  let styles := getShapeStyle style
  if shape.points.length < 2 then
    (shape.pointsRef, "") :: pc
  else
    let options := strokeSettings shape
    let stroke := getStroke shape.points
      { size := 1 + styles.strokeWidth * 2
        thinning := 17 / 20
        taperStart := styles.strokeWidth * 20
        taperEnd := styles.strokeWidth * 20
        simulatePressure := options.simulatePressure
        easing := options.easing }
    (shape.pointsRef, getSvgPathFromStroke stroke) :: pc

/-- The two elements `render` can produce: a circular dot or a path. -/
inductive RenderedElement where
  | circle (id : String) (r : ℚ) (fill : String)
  | path (id : String) (d : String) (fill : String)
deriving DecidableEq, Repr

/-- `render(shape)` from `draw.tsx`: populate the path cache for this
points array if it has no entry yet; with fewer than two points return a
circular dot of radius `0.618 ×` the resolved stroke width, otherwise a
path element carrying the cached path. Returns the element and the
updated path cache. -/
def render (pc : PathCache) (shape : Shape) : RenderedElement × PathCache :=
  let styles := getShapeStyle shape.style
  let pc :=
    if (List.lookup shape.pointsRef pc).isSome then pc
    else renderPath pc shape shape.style
  if shape.points.length < 2 then
    (RenderedElement.circle shape.id (styles.strokeWidth * (618 / 1000)) styles.stroke, pc)
  else
    (RenderedElement.path shape.id ((List.lookup shape.pointsRef pc).getD "") styles.stroke,
     pc)

/-! ## Concrete sample data used by the witnesses -/

/-- A two-point draw shape with sentinel pressure values, anchored away
from the origin. Its local bounds are `⟨0, 0, 4, 2, 4, 2⟩`. -/
def sampleShape : Shape :=
  { ref := 0
    id := "s0"
    name := "Draw"
    parentId := "page0"
    childIndex := 0
    point := (5, 5)
    points := [[0, 0, 1 / 2], [4, 2, 1 / 2]]
    pointsRef := 0
    rotation := 0
    style := defaultStyle
    isGenerated := false
    isAspectRatioLocked := false
    isLocked := false
    isHidden := false }

/-- The local (untranslated) bounds of `sampleShape`. -/
def sampleLocalBounds : Bounds := getBoundsFromPoints0 sampleShape.points

/-- A bounds cache holding the local bounds of `sampleShape`, as a prior
`getBounds` call leaves it. -/
def sampleCache : BCache := [(0, sampleLocalBounds)]

/-- The document-space bounds of `sampleShape`: its local bounds
translated by its anchor. -/
def sampleTarget : Bounds := translateBounds sampleLocalBounds sampleShape.point

/-- The result of `transform sampleCache ⟨1⟩ sampleShape sampleTarget
sampleShape 1 1`: same coordinates, pressure dropped, fresh points
identity, anchor unchanged. -/
def sampleIdentityResult : Shape :=
  { sampleShape with points := [[0, 0], [4, 2]], pointsRef := 1 }

/-- A one-point shape (a single click, rendered as a dot). -/
def sampleDotShape : Shape :=
  { sampleShape with points := [[1, 2, 1 / 2]], pointsRef := 7 }

/-- The result of `transform sampleCache ⟨1⟩ sampleShape sampleTarget
sampleShape (-1) (-1)`: the point set mirrored about both axes, fresh
points identity, anchor unchanged. -/
def sampleMirrorResult : Shape :=
  { sampleShape with points := [[4, 2], [0, 0]], pointsRef := 1 }

/-- An unrotated shape anchored at `(100, 100)` whose local polyline runs
from `(0, 0)` to `(10, 10)`; in document space it runs from `(100, 100)`
to `(110, 110)`. -/
def c1Shape : Shape :=
  { sampleShape with point := (100, 100), points := [[0, 0, 1 / 2], [10, 10, 1 / 2]] }

/-- A brush box `[99, 105] × [99, 105]`: it overlaps the document-space
polyline of `c1Shape` (and does not contain its bounds), but misses the
untranslated local polyline entirely. -/
def c1Brush : Bounds := ⟨99, 99, 105, 105, 6, 6⟩

/-! ## Claims -/

/-- C6: `applyStyles` always yields `isFilled = false` and
`dash = solid` regardless of the partial style, keeps the same point
values, and gives the points sequence a fresh identity (the source
replaces `points` with `[...shape.points]`, a new array). The hypothesis
is the allocation invariant: the shape's current points identity was
allocated before the counter's next token. -/
theorem C6_applyStyles_forces_style_and_fresh_points (al : Alloc) (shape : Shape)
    (style : PartialShapeStyles) (h : shape.pointsRef < al.next) :
    (applyStyles al shape style).1.style.isFilled = false ∧
    (applyStyles al shape style).1.style.dash = DashStyle.solid ∧
    (applyStyles al shape style).1.points = shape.points ∧
    (applyStyles al shape style).1.pointsRef ≠ shape.pointsRef := by
  refine ⟨rfl, rfl, rfl, ?_⟩
  show al.next ≠ shape.pointsRef
  omega

/-- Witness for C6 at a concrete shape and a partial style that asks for
`isFilled = true` and a dotted dash. -/
theorem C6_applyStyles_witness :
    (applyStyles ⟨1⟩ sampleShape
        { isFilled := some true, dash := some DashStyle.dotted }).1.style.isFilled = false ∧
    (applyStyles ⟨1⟩ sampleShape
        { isFilled := some true, dash := some DashStyle.dotted }).1.style.dash
      = DashStyle.solid ∧
    (applyStyles ⟨1⟩ sampleShape
        { isFilled := some true, dash := some DashStyle.dotted }).1.points
      = sampleShape.points ∧
    (applyStyles ⟨1⟩ sampleShape
        { isFilled := some true, dash := some DashStyle.dotted }).1.pointsRef
      ≠ sampleShape.pointsRef :=
  C6_applyStyles_forces_style_and_fresh_points ⟨1⟩ sampleShape
    { isFilled := some true, dash := some DashStyle.dotted } (by decide)

/-- C8: a shape with zero or one points renders as a circular dot of
radius `0.618 ×` the resolved stroke width — never a path element — and
the path cache afterwards holds the empty path for that point sequence.
Hypotheses: fewer than two points, and the points array has no cache
entry yet (the cache's only writer stores `""` for such arrays, so a
fresh sequence starts uncached). -/
theorem C8_render_dot (pc : PathCache) (shape : Shape)
    (hlen : shape.points.length < 2)
    (hpc : List.lookup shape.pointsRef pc = none) :
    (render pc shape).1
      = RenderedElement.circle shape.id
          ((getShapeStyle shape.style).strokeWidth * (618 / 1000))
          (getShapeStyle shape.style).stroke ∧
    (∀ i d f, (render pc shape).1 ≠ RenderedElement.path i d f) ∧
    List.lookup shape.pointsRef (render pc shape).2 = some "" := by
  have hsome : (List.lookup shape.pointsRef pc).isSome = false := by
    rw [hpc]; rfl
  refine ⟨?_, ?_, ?_⟩
  · simp [render, hsome, hlen]
  · intro i d f
    simp [render, hsome, hlen]
  · simp [render, renderPath, hsome, hlen, List.lookup]

/-- Witness for C8: rendering the one-point shape with an empty path
cache. -/
theorem C8_render_dot_witness :
    (render [] sampleDotShape).1
      = RenderedElement.circle sampleDotShape.id
          ((getShapeStyle sampleDotShape.style).strokeWidth * (618 / 1000))
          (getShapeStyle sampleDotShape.style).stroke ∧
    (∀ i d f, (render [] sampleDotShape).1 ≠ RenderedElement.path i d f) ∧
    List.lookup sampleDotShape.pointsRef (render [] sampleDotShape).2 = some "" :=
  C8_render_dot [] sampleDotShape (by decide) (by simp [List.lookup])

/-- C9: a point hit-test on a shape with fewer than two sample points is
always false: the test only looks at segments between consecutive point
pairs (`i > 0`), and none exist. -/
theorem C9_hitTest_degenerate_false (shape : Shape) (point : ℚ × ℚ)
    (h : shape.points.length < 2) : hitTest shape point = false := by
  rcases hp : shape.points with _ | ⟨p, _ | ⟨q, qs⟩⟩
  · simp [hitTest, hp]
  · simp [hitTest, hp, List.enum]
  · rw [hp] at h
    simp at h
    omega

/-- Witness for C9: the one-point shape is not hit at the origin (nor is
the empty shape). -/
theorem C9_hitTest_witness : hitTest sampleDotShape (0, 0) = false :=
  C9_hitTest_degenerate_false sampleDotShape (0, 0) (by decide)

/-- C7: with at least two sample points, the stroke options are selected
solely by whether the second point's third coordinate equals exactly
`0.5`: if it does, pressure is simulated; otherwise the recorded pressure
drives the stroke with the fixed quadratic easing `t ↦ t * t` and
`simulatePressure = false`. The last conjunct is the "solely" part: any
two shapes agreeing on the sentinel test get the same settings. -/
theorem C7_strokeSettings_sentinel (shape : Shape) (p : List ℚ)
    (h : shape.points[1]? = some p) :
    (ptP p = 1 / 2 →
      strokeSettings shape = simulatePressureSettings ∧
      (strokeSettings shape).simulatePressure = true) ∧
    (ptP p ≠ 1 / 2 →
      strokeSettings shape = realPressureSettings ∧
      (strokeSettings shape).simulatePressure = false ∧
      (strokeSettings shape).easing = some fun t => t * t) ∧
    (∀ s2 p2, s2.points[1]? = some p2 → (ptP p = 1 / 2 ↔ ptP p2 = 1 / 2) →
      strokeSettings shape = strokeSettings s2) := by
  have hd : shape.points.getD 1 [] = p := by simp [h]
  refine ⟨fun hs => ?_, fun hs => ?_, fun s2 p2 h2 hiff => ?_⟩
  · rw [strokeSettings, hd, if_pos hs]
    exact ⟨rfl, rfl⟩
  · rw [strokeSettings, hd, if_neg hs]
    exact ⟨rfl, rfl, rfl⟩
  · have hd2 : s2.points.getD 1 [] = p2 := by simp [h2]
    rw [strokeSettings, strokeSettings, hd, hd2]
    by_cases hs : ptP p = 1 / 2
    · rw [if_pos hs, if_pos (hiff.mp hs)]
    · rw [if_neg hs, if_neg (fun hx => hs (hiff.mpr hx))]

/-- Witness for C7 at the sentinel-pressure sample shape (second point
`[4, 2, 0.5]`). -/
theorem C7_strokeSettings_witness :
    (ptP [4, 2, 1 / 2] = 1 / 2 →
      strokeSettings sampleShape = simulatePressureSettings ∧
      (strokeSettings sampleShape).simulatePressure = true) ∧
    (ptP [4, 2, 1 / 2] ≠ 1 / 2 →
      strokeSettings sampleShape = realPressureSettings ∧
      (strokeSettings sampleShape).simulatePressure = false ∧
      (strokeSettings sampleShape).easing = some fun t => t * t) ∧
    (∀ s2 p2, s2.points[1]? = some p2 → (ptP [4, 2, 1 / 2] = 1 / 2 ↔ ptP p2 = 1 / 2) →
      strokeSettings sampleShape = strokeSettings s2) :=
  C7_strokeSettings_sentinel sampleShape [4, 2, 1 / 2] (by rfl)

/-- C2: `getBounds` computes the local box at most once per shape
identity and stores the untranslated local box; every call returns the
cached local box translated by the shape's current anchor. Consequences
proved: the returned value is the local box translated by `shape.point`;
after the call the cache holds the untranslated local box; a second call
returns the identical value, leaves the cache unchanged and does not
recompute; and after mutating only `shape.point` by a delta, the returned
box keeps its width and height while its min corner shifts by exactly
that delta, still without recomputing. -/
theorem C2_getBounds_caching (cache : BCache) (s : Shape) (d : ℚ × ℚ)
    (hc : boundsCacheConsistent cache s) :
    (getBoundsC cache s).1 = translateBounds (getBoundsFromPoints0 s.points) s.point ∧
    List.lookup s.ref (getBoundsC cache s).2.1 = some (getBoundsFromPoints0 s.points) ∧
    getBoundsC (getBoundsC cache s).2.1 s
      = ((getBoundsC cache s).1, (getBoundsC cache s).2.1, false) ∧
    ((getBoundsC (getBoundsC cache s).2.1
        { s with point := (s.point.1 + d.1, s.point.2 + d.2) }).1.width
      = (getBoundsC cache s).1.width ∧
     (getBoundsC (getBoundsC cache s).2.1
        { s with point := (s.point.1 + d.1, s.point.2 + d.2) }).1.height
      = (getBoundsC cache s).1.height ∧
     (getBoundsC (getBoundsC cache s).2.1
        { s with point := (s.point.1 + d.1, s.point.2 + d.2) }).1.minX
      = (getBoundsC cache s).1.minX + d.1 ∧
     (getBoundsC (getBoundsC cache s).2.1
        { s with point := (s.point.1 + d.1, s.point.2 + d.2) }).1.minY
      = (getBoundsC cache s).1.minY + d.2 ∧
     (getBoundsC (getBoundsC cache s).2.1
        { s with point := (s.point.1 + d.1, s.point.2 + d.2) }).2.2 = false) := by
  cases h : List.lookup s.ref cache with
  | some b =>
    have hb : b = getBoundsFromPoints0 s.points := hc b h
    subst hb
    refine ⟨?_, ?_, ?_, ?_, ?_, ?_, ?_, ?_⟩ <;>
      simp [getBoundsC, h, translateBounds] <;> ring
  | none =>
    have h2 : List.lookup s.ref ((s.ref, getBoundsFromPoints0 s.points) :: cache)
        = some (getBoundsFromPoints0 s.points) := by
      simp [List.lookup]
    refine ⟨?_, ?_, ?_, ?_, ?_, ?_, ?_, ?_⟩ <;>
      simp [getBoundsC, h, h2, translateBounds] <;> ring

/-- Witness for C2 at the sample shape and the empty cache, shifting the
anchor by `(3, 4)` (projected to the anchor-shift conjunct). -/
theorem C2_getBounds_caching_witness :
    (getBoundsC (getBoundsC [] sampleShape).2.1
        { sampleShape with
            point := (sampleShape.point.1 + (3 : ℚ), sampleShape.point.2 + (4 : ℚ)) }).1.minX
      = (getBoundsC [] sampleShape).1.minX + 3 :=
  ((C2_getBounds_caching [] sampleShape (3, 4)
      (by intro b hb; simp [List.lookup] at hb)).2.2.2).2.2.1

/-- C3: with rotation `0`, `getRotatedBounds` returns exactly the box
`getBounds` returns: the pre-rotated box coincides with the unrotated box
and the center-alignment translation is the zero vector. -/
theorem C3_getRotatedBounds_zero_rotation (cache : BCache) (shape : Shape)
    (hr : shape.rotation = 0) (hc : boundsCacheConsistent cache shape) :
    (getRotatedBounds cache shape).1 = (getBoundsC cache shape).1 := by
  have hval : (getBoundsC cache shape).1
      = translateBounds (getBoundsFromPoints0 shape.points) shape.point := by
    cases h : List.lookup shape.ref cache with
    | some b => simp [getBoundsC, h, hc b h]
    | none => simp [getBoundsC, h]
  have hkey : ∀ b : Bounds,
      translateBounds b (vsub (getBoundsCenter b) (getBoundsCenter b)) = b := by
    intro b
    cases b
    simp [translateBounds, vsub, getBoundsCenter]
  show translateBounds _ (vsub (getBoundsCenter (getBoundsC cache shape).1) _) = _
  rw [hr, getBoundsFromPoints, if_pos rfl, hval]
  exact hkey _

/-- Witness for C3 at the sample shape (rotation `0`) and the cache a
prior `getBounds` call populated. -/
theorem C3_getRotatedBounds_witness :
    (getRotatedBounds sampleCache sampleShape).1 = (getBoundsC sampleCache sampleShape).1 :=
  C3_getRotatedBounds_zero_rotation sampleCache sampleShape (by rfl)
    (by
      intro b hb
      rw [show List.lookup sampleShape.ref sampleCache = some sampleLocalBounds from rfl] at hb
      cases hb
      rfl)

/-- C1: the claim states that for rotation `0`, `hitTestBounds` is true
iff the brush contains the document-space bounds or the document-space
polyline (sample points translated by the anchor) meets the brush, in the
same frame as the rotated branch. The code's unrotated branch instead
passes `shape.points` untranslated, mixing the local polyline with the
document-space brush: at `c1Shape`/`c1Brush` the code answers `false`
while the document-space semantics (and the rotated branch's frame)
answer `true`. -/
theorem C1_hitTestBounds_frame_mismatch :
    c1Shape.rotation = 0 ∧
    (hitTestBounds [] [] c1Shape c1Brush).1 = false ∧
    hitTestBoundsSpecUnrotated [] c1Shape c1Brush = true := by
  refine ⟨rfl, ?_, ?_⟩
  · norm_num [hitTestBounds, c1Shape, c1Brush, sampleShape, getBoundsC, List.lookup,
      getBoundsFromPoints0, translateBounds, boundsContain, polylineIntersectsBounds,
      segmentIntersectsBounds, slabClip, toPt, ptX, ptY, vsub, vadd]
  · norm_num [hitTestBoundsSpecUnrotated, c1Shape, c1Brush, sampleShape, getBoundsC, List.lookup,
      getBoundsFromPoints0, translateBounds, boundsContain, polylineIntersectsBounds,
      segmentIntersectsBounds, slabClip, toPt, ptX, ptY, vsub, vadd]

/-- C10: `transform` rebuilds every sample point as a two-element
`[x, y]` pair — the destructuring `([x, y]) => ...` drops the third
(pressure) coordinate, so all pressure data (including the `0.5`
sentinel) is lost. -/
theorem C10_transform_two_components (cache : BCache) (al : Alloc) (shape : Shape)
    (bounds : Bounds) (initialShape : Shape) (scaleX scaleY : ℚ) (s2 : Shape) (al2 : Alloc)
    (h : transform cache al shape bounds initialShape scaleX scaleY = some (s2, al2)) :
    s2.points.all (fun p => p.length == 2) = true := by
  cases hl : List.lookup initialShape.ref cache with
  | none => simp [transform, hl] at h
  | some ib =>
    simp only [transform, hl, Option.some.injEq, Prod.mk.injEq] at h
    obtain ⟨hs, -⟩ := h
    subst hs
    simp [List.all_eq_true, remapPoint]

/-- Evaluation of the identity transform of the sample shape. -/
theorem sampleTransform_eval :
    transform sampleCache ⟨1⟩ sampleShape sampleTarget sampleShape 1 1
      = some (sampleIdentityResult, ⟨2⟩) := by
  norm_num [transform, remapPoint, sampleCache, sampleShape, sampleTarget,
    sampleLocalBounds, sampleIdentityResult, List.lookup, getBoundsFromPoints0,
    translateBounds, ptX, ptY, vsub]

/-- C4 counterexample: at the sample shape — whose points carry the
pressure coordinate `0.5`, as every captured point does — the unit-scale
transform into the original bounds does NOT leave every sample point
unchanged: the first point goes from `[0, 0, 0.5]` to `[0, 0]`, losing a
component, which no floating-point tolerance covers. -/
theorem C4_transform_point_changed_counterexample :
    transform sampleCache ⟨1⟩ sampleShape sampleTarget sampleShape 1 1
      = some (sampleIdentityResult, ⟨2⟩) ∧
    (sampleIdentityResult.points.getD 0 []).length
      ≠ (sampleShape.points.getD 0 []).length := by
  refine ⟨sampleTransform_eval, by decide⟩

/-- C4 (amended): with the pre-transform local bounds cached, unit scale
factors and the target box equal to the original document-space bounds,
`transform` preserves every sample point's `x` and `y` coordinates
exactly (the third, pressure, coordinate is discarded by the remapping),
and the adjusted anchor places the new bounds' top-left exactly at the
target box's top-left. -/
theorem C4_transform_unit_scale_identity (cache : BCache) (al : Alloc) (s : Shape)
    (tb : Bounds) (s2 : Shape) (al2 : Alloc)
    (hcache : List.lookup s.ref cache = some (getBoundsFromPoints0 s.points))
    (htb : tb = translateBounds (getBoundsFromPoints0 s.points) s.point)
    (hw : (getBoundsFromPoints0 s.points).width ≠ 0)
    (hh : (getBoundsFromPoints0 s.points).height ≠ 0)
    (htr : transform cache al s tb s 1 1 = some (s2, al2)) :
    s2.points = s.points.map (fun p => [ptX p, ptY p]) ∧
    (translateBounds (getBoundsFromPoints0 s2.points) s2.point).minX = tb.minX ∧
    (translateBounds (getBoundsFromPoints0 s2.points) s2.point).minY = tb.minY := by
  simp only [transform, hcache, Option.some.injEq, Prod.mk.injEq] at htr
  obtain ⟨hs, -⟩ := htr
  subst hs
  refine ⟨?_, ?_, ?_⟩
  · apply List.map_congr_left
    intro p _
    have h1 : ¬ (1 : ℚ) < 0 := by norm_num
    simp only [remapPoint]
    rw [if_neg h1, if_neg h1, htb]
    simp only [translateBounds]
    rw [mul_comm _ (ptX p / _), div_mul_cancel₀ _ hw,
      mul_comm _ (ptY p / _), div_mul_cancel₀ _ hh]
  · simp only [translateBounds, vsub]
    ring
  · simp only [translateBounds, vsub]
    ring

/-- Witness for C4's amended statement: the concrete identity transform
keeps the sample shape's `x`/`y` coordinates. -/
theorem C4_transform_unit_scale_identity_witness :
    sampleIdentityResult.points = sampleShape.points.map (fun p => [ptX p, ptY p]) :=
  (C4_transform_unit_scale_identity sampleCache ⟨1⟩ sampleShape sampleTarget
    sampleIdentityResult ⟨2⟩ (by rfl) (by rfl)
    (by norm_num [sampleLocalBounds, sampleShape, getBoundsFromPoints0, ptX])
    (by norm_num [sampleLocalBounds, sampleShape, getBoundsFromPoints0, ptY])
    sampleTransform_eval).1

/-- Witness for C10: the concrete identity transform of the sample shape
yields only two-component points. -/
theorem C10_transform_two_components_witness :
    sampleIdentityResult.points.all (fun p => p.length == 2) = true :=
  C10_transform_two_components sampleCache ⟨1⟩ sampleShape sampleTarget sampleShape 1 1
    sampleIdentityResult ⟨2⟩ sampleTransform_eval

/-- `min` of a decreasing affine map at two points is the map of their
`max` (helper for the mirrored-bounds computation). -/
theorem min_affine_of_nonneg (W c x a : ℚ) (hc : 0 ≤ c) :
    min (W - c * x) (W - c * a) = W - c * max x a := by
  rcases le_total x a with h | h
  · rw [max_eq_right h, min_eq_right (by nlinarith)]
  · rw [max_eq_left h, min_eq_left (by nlinarith)]

/-- Folding `min` over the image of a decreasing affine map computes the
map of the folded `max`. -/
theorem foldl_min_map_affine (W c : ℚ) (hc : 0 ≤ c) (l : List ℚ) :
    ∀ x : ℚ, (l.map fun a => W - c * a).foldl min (W - c * x) = W - c * l.foldl max x := by
  induction l with
  | nil => intro x; rfl
  | cons a t ih =>
    intro x
    simp only [List.map_cons, List.foldl_cons]
    rw [min_affine_of_nonneg W c x a hc, ih (max x a)]

/-- The `minX` of the box of points remapped by a map whose `x`
coordinate is decreasing affine is that map of the original box's
`maxX`. -/
theorem minX_of_affine_map (f : List ℚ → List ℚ) (W c : ℚ) (hc : 0 ≤ c)
    (hfx : ∀ p, ptX (f p) = W - c * ptX p) (p0 : List ℚ) (ps : List (List ℚ)) :
    (getBoundsFromPoints0 ((p0 :: ps).map f)).minX
      = W - c * (getBoundsFromPoints0 (p0 :: ps)).maxX := by
  show ((ps.map f).map ptX).foldl min (ptX (f p0)) = _
  rw [List.map_map]
  rw [show ps.map (ptX ∘ f) = (ps.map ptX).map (fun v => W - c * v) from by
    rw [List.map_map]; exact List.map_congr_left fun p _ => hfx p]
  rw [hfx p0]
  exact foldl_min_map_affine W c hc (ps.map ptX) (ptX p0)

/-- `minY` analogue of `minX_of_affine_map`. -/
theorem minY_of_affine_map (f : List ℚ → List ℚ) (W c : ℚ) (hc : 0 ≤ c)
    (hfy : ∀ p, ptY (f p) = W - c * ptY p) (p0 : List ℚ) (ps : List (List ℚ)) :
    (getBoundsFromPoints0 ((p0 :: ps).map f)).minY
      = W - c * (getBoundsFromPoints0 (p0 :: ps)).maxY := by
  show ((ps.map f).map ptY).foldl min (ptY (f p0)) = _
  rw [List.map_map]
  rw [show ps.map (ptY ∘ f) = (ps.map ptY).map (fun v => W - c * v) from by
    rw [List.map_map]; exact List.map_congr_left fun p _ => hfy p]
  rw [hfy p0]
  exact foldl_min_map_affine W c hc (ps.map ptY) (ptY p0)

/-- C5: with the pre-transform local bounds cached, a negative horizontal
scale factor mirrors the point set horizontally: every remapped point's
normalized x-offset within the target box (its document-space `x`, after
re-anchoring, relative to the target box) equals `1 -` its old normalized
x-offset within the pre-transform local bounds — and symmetrically for a
negative vertical scale factor on the `y` axis. -/
theorem C5_transform_negative_scale_mirrors (cache : BCache) (al : Alloc) (s : Shape)
    (tb : Bounds) (s2 : Shape) (al2 : Alloc) (scaleX scaleY : ℚ)
    (hcache : List.lookup s.ref cache = some (getBoundsFromPoints0 s.points))
    (hW : 0 < tb.width) (hH : 0 < tb.height)
    (hw : 0 < (getBoundsFromPoints0 s.points).width)
    (hh : 0 < (getBoundsFromPoints0 s.points).height)
    (htr : transform cache al s tb s scaleX scaleY = some (s2, al2)) :
    (scaleX < 0 → ∀ (i : ℕ) (p q : List ℚ),
       s.points[i]? = some p → s2.points[i]? = some q →
       (ptX q + s2.point.1 - tb.minX) / tb.width
         = 1 - (ptX p - (getBoundsFromPoints0 s.points).minX)
             / (getBoundsFromPoints0 s.points).width) ∧
    (scaleY < 0 → ∀ (i : ℕ) (p q : List ℚ),
       s.points[i]? = some p → s2.points[i]? = some q →
       (ptY q + s2.point.2 - tb.minY) / tb.height
         = 1 - (ptY p - (getBoundsFromPoints0 s.points).minY)
             / (getBoundsFromPoints0 s.points).height) := by
  simp only [transform, hcache, Option.some.injEq, Prod.mk.injEq] at htr
  obtain ⟨hs, -⟩ := htr
  have hpoints : s2.points
      = s.points.map (remapPoint tb (getBoundsFromPoints0 s.points) scaleX scaleY) := by
    rw [← hs]
  have hpoint : s2.point
      = vsub (tb.minX, tb.minY)
          ((getBoundsFromPoints0
              (s.points.map (remapPoint tb (getBoundsFromPoints0 s.points) scaleX scaleY))).minX,
           (getBoundsFromPoints0
              (s.points.map (remapPoint tb (getBoundsFromPoints0 s.points) scaleX scaleY))).minY) := by
    rw [← hs]
  constructor
  · intro hx i p q hp hq
    rw [hpoints, List.getElem?_map, hp] at hq
    simp only [Option.map_some', Option.some.injEq] at hq
    subst hq
    rcases hps : s.points with _ | ⟨p0, ps⟩
    · rw [hps] at hp; simp at hp
    · rw [hps] at hpoint hw
      have hfx : ∀ r, ptX (remapPoint tb (getBoundsFromPoints0 (p0 :: ps)) scaleX scaleY r)
          = tb.width - tb.width / (getBoundsFromPoints0 (p0 :: ps)).width * ptX r := by
        intro r
        simp only [remapPoint, ptX, List.getD_cons_zero, if_pos hx]
        ring
      have hc : (0:ℚ) ≤ tb.width / (getBoundsFromPoints0 (p0 :: ps)).width :=
        div_nonneg hW.le hw.le
      have hmin : (getBoundsFromPoints0
            ((p0 :: ps).map (remapPoint tb (getBoundsFromPoints0 (p0 :: ps)) scaleX scaleY))).minX
          = tb.width - tb.width / (getBoundsFromPoints0 (p0 :: ps)).width
              * (getBoundsFromPoints0 (p0 :: ps)).maxX :=
        minX_of_affine_map _ _ _ hc hfx p0 ps
      rw [hpoint, hfx p, vsub, hmin]
      have hwd : (getBoundsFromPoints0 (p0 :: ps)).width
          = (getBoundsFromPoints0 (p0 :: ps)).maxX - (getBoundsFromPoints0 (p0 :: ps)).minX := rfl
      have hWne : tb.width ≠ 0 := ne_of_gt hW
      have hwne : (getBoundsFromPoints0 (p0 :: ps)).width ≠ 0 := ne_of_gt hw
      rw [hwd] at hwne ⊢
      field_simp
      ring
  · intro hy i p q hp hq
    rw [hpoints, List.getElem?_map, hp] at hq
    simp only [Option.map_some', Option.some.injEq] at hq
    subst hq
    rcases hps : s.points with _ | ⟨p0, ps⟩
    · rw [hps] at hp; simp at hp
    · rw [hps] at hpoint hh
      have hfy : ∀ r, ptY (remapPoint tb (getBoundsFromPoints0 (p0 :: ps)) scaleX scaleY r)
          = tb.height - tb.height / (getBoundsFromPoints0 (p0 :: ps)).height * ptY r := by
        intro r
        simp only [remapPoint, ptY, List.getD_cons_succ, List.getD_cons_zero, if_pos hy]
        ring
      have hc : (0:ℚ) ≤ tb.height / (getBoundsFromPoints0 (p0 :: ps)).height :=
        div_nonneg hH.le hh.le
      have hmin : (getBoundsFromPoints0
            ((p0 :: ps).map (remapPoint tb (getBoundsFromPoints0 (p0 :: ps)) scaleX scaleY))).minY
          = tb.height - tb.height / (getBoundsFromPoints0 (p0 :: ps)).height
              * (getBoundsFromPoints0 (p0 :: ps)).maxY :=
        minY_of_affine_map _ _ _ hc hfy p0 ps
      rw [hpoint, hfy p, vsub, hmin]
      have hwd : (getBoundsFromPoints0 (p0 :: ps)).height
          = (getBoundsFromPoints0 (p0 :: ps)).maxY - (getBoundsFromPoints0 (p0 :: ps)).minY := rfl
      have hHne : tb.height ≠ 0 := ne_of_gt hH
      have hhne : (getBoundsFromPoints0 (p0 :: ps)).height ≠ 0 := ne_of_gt hh
      rw [hwd] at hhne ⊢
      field_simp
      ring

/-- Evaluation of the both-axes mirror transform of the sample shape. -/
theorem sampleMirrorTransform_eval :
    transform sampleCache ⟨1⟩ sampleShape sampleTarget sampleShape (-1) (-1)
      = some (sampleMirrorResult, ⟨2⟩) := by
  norm_num [transform, remapPoint, sampleCache, sampleShape, sampleTarget,
    sampleLocalBounds, sampleMirrorResult, List.lookup, getBoundsFromPoints0,
    translateBounds, ptX, ptY, vsub]

/-- Witness for C5: mirroring the sample shape with scale `(-1, -1)` into
its own bounds sends the first point (old normalized x-offset `0`) to
normalized x-offset `1`. -/
theorem C5_transform_negative_scale_mirrors_witness :
    (ptX [(4 : ℚ), 2] + sampleMirrorResult.point.1 - sampleTarget.minX) / sampleTarget.width
      = 1 - (ptX [(0 : ℚ), 0, 1 / 2] - (getBoundsFromPoints0 sampleShape.points).minX)
          / (getBoundsFromPoints0 sampleShape.points).width :=
  (C5_transform_negative_scale_mirrors sampleCache ⟨1⟩ sampleShape sampleTarget
      sampleMirrorResult ⟨2⟩ (-1) (-1) (by rfl)
      (by norm_num [sampleTarget, translateBounds, sampleLocalBounds, getBoundsFromPoints0,
        sampleShape, ptX, max_def, min_def])
      (by norm_num [sampleTarget, translateBounds, sampleLocalBounds, getBoundsFromPoints0,
        sampleShape, ptY, max_def, min_def])
      (by norm_num [getBoundsFromPoints0, sampleShape, ptX, max_def, min_def])
      (by norm_num [getBoundsFromPoints0, sampleShape, ptY, max_def, min_def])
      sampleMirrorTransform_eval).1
    (by norm_num) 0 [0, 0, 1 / 2] [4, 2] (by rfl) (by rfl)
